import Mathlib

/-!
Verification of `aligner/config.py` from the Montreal-Forced-Aligner
repository, as a shallow embedding in Lean 4.

Modelling conventions:
- Python attribute stores are Lean structures; attributes that the class
  constructor may leave unset (only supplied through `**kwargs` or by a
  subclass) are `Option` fields, `none` meaning "attribute missing".
- `**kwargs` dictionaries are structures of `Option` fields (`none` = key
  absent); `defaults.update(kwargs)` is an `Option`-preferring merge.
- Python exceptions raised by `@property` getters are modelled with
  `Except PyError`.
- Python `float` literals stored in configuration fields are modelled as
  exact rationals (`Rat`); the values are only stored, never computed with.
- Python's built-in `str` is modelled per value-constructor (`pyStr`); a
  float value is carried together with its decimal rendering, since the
  rendering of floats is Python's built-in shortest-representation
  algorithm, external to this repository.
- `int(x / y)` on Python ints is modelled faithfully to CPython: `x / y`
  produces the correctly rounded IEEE-754 binary64 value of the exact
  quotient (round to 53 significant bits, nearest, ties to even —
  `roundB64`), raising `ZeroDivisionError` on `y = 0` and `OverflowError`
  when the rounded magnitude reaches `2^1024`; `int()` then truncates
  toward zero (`pyTrunc`).  The one idealization: below `2^-1022` the
  model rounds at 53 significant bits where binary64 uses the coarser
  subnormal granularity; both sides of that difference truncate to `0`,
  so `int(x / y)` is unaffected.
- The filesystem touched by `MfccConfig` is modelled explicitly: paths are
  lists of components (`os.path.join` appends a component), the set of
  existing directories is a list of paths, and the single file the object
  writes is carried in its state (its path never changes after
  construction, since `output_directory` and `job` are never mutated).
-/

/-- Python runtime errors that the getters of this module can raise. -/
inductive PyError where
  | attributeError (attr : String)
  | zeroDivisionError
  | overflowError
deriving DecidableEq

/-- Values that occur in the `MfccConfig.config_dict` dictionary and as
arguments of `make_safe`.  A float carries its Python `str()` rendering. -/
inductive PyVal where
  | bool (b : Bool)
  | int (n : Int)
  | str (s : String)
  | float (render : String)
deriving DecidableEq

/-- Python's built-in `str` on the values of `PyVal`
(`str(True) == 'True'`, `str(False) == 'False'`, ints in decimal). -/
def pyStr : PyVal → String
  | PyVal.bool true => "True"
  | PyVal.bool false => "False"
  | PyVal.int n => toString n
  | PyVal.str s => s
  | PyVal.float r => r

/-- Python's `str.lower()`: lower-case every character (character-wise
`Char.toLower`; the only strings this module lowers are `'True'` and
`'False'`, which are plain ASCII). -/
def strLower (s : String) : String :=
  String.mk (s.data.map Char.toLower)

/-- Embeds `make_safe` (config.py lines 6-9): booleans render as
`str(value).lower()`, everything else as `str(value)`. -/
def make_safe (value : PyVal) : String :=
  match value with
  | PyVal.bool _ => strLower (pyStr value)
  | _ => pyStr value

/-- Fuel-driven binary logarithm on naturals (structural recursion so the
kernel can evaluate it; with `fuel ≥ n` it computes `⌊log2 n⌋`). -/
def log2fuel : Nat → Nat → Nat
  | 0, _ => 0
  | fuel + 1, n => if n < 2 then 0 else log2fuel fuel (n / 2) + 1

/-- Binary logarithm `⌊log2 n⌋` of a positive natural. -/
def natLog2 (n : Nat) : Nat :=
  log2fuel n n

/-- Floor of the base-2 logarithm of a positive rational `q`: with
`n = q.num`, `d = q.den` and a shift `S` large enough that `n·2^S ≥ d`,
this is `⌊log2 (n·2^S / d)⌋ - S`.  (Junk value on `q ≤ 0`, never used.) -/
def floorLog2Rat (q : ℚ) : Int :=
  (natLog2 (q.num.toNat * 2 ^ (natLog2 q.den + 2) / q.den) : Int) -
    (natLog2 q.den + 2)

/-- Scaling exponent that brings a positive rational into `[2^52, 2^53)`:
`a · 2^(b64scale a)` is the infinitely precise binary64 significand. -/
def b64scale (a : ℚ) : Int :=
  52 - floorLog2Rat a

/-- The 53-bit significand of the binary64 value nearest to a positive
rational `a`: round `a · 2^(b64scale a)` to the nearest integer, ties to
even. -/
def b64m (a : ℚ) : Int :=
  if 1 / 2 < a * 2 ^ b64scale a - ⌊a * 2 ^ b64scale a⌋ then ⌊a * 2 ^ b64scale a⌋ + 1
  else if a * 2 ^ b64scale a - ⌊a * 2 ^ b64scale a⌋ < 1 / 2 then ⌊a * 2 ^ b64scale a⌋
  else if ⌊a * 2 ^ b64scale a⌋ % 2 = 0 then ⌊a * 2 ^ b64scale a⌋
  else ⌊a * 2 ^ b64scale a⌋ + 1

/-- The binary64 value (round to nearest, ties to even, exponent
unbounded) nearest to a positive rational. -/
def roundPos (a : ℚ) : ℚ :=
  (b64m a : ℚ) * 2 ^ (-b64scale a)

/-- Rounding an arbitrary rational to binary64 precision (53 significant
bits, round to nearest, ties to even, exponent unbounded; symmetric in
sign, exactly as IEEE-754 round-to-nearest is). -/
def roundB64 (q : ℚ) : ℚ :=
  if q = 0 then 0
  else if q < 0 then -roundPos (-q)
  else roundPos q

/-- Python's `int()` applied to a (float) value: truncation toward zero. -/
def pyTrunc (q : ℚ) : Int :=
  if 0 ≤ q then ⌊q⌋ else -⌊-q⌋

/-- Embeds Python's `int(a / b)` on integers `a`, `b`: true division
produces the correctly rounded binary64 value of the exact quotient,
raising `ZeroDivisionError` on `b = 0` and `OverflowError` when the
rounded magnitude reaches `2^1024` (the IEEE overflow threshold: a value
that rounds, with unbounded exponent, to `2^1024` or beyond does not fit
a double); `int()` then truncates toward zero. -/
def pyIntTrueDiv (a b : Int) : Except PyError Int :=
  if b = 0 then Except.error PyError.zeroDivisionError
  else if ((2 ^ 1024 : ℕ) : ℚ) ≤ |roundB64 ((a : ℚ) / (b : ℚ))| then
    Except.error PyError.overflowError
  else Except.ok (pyTrunc (roundB64 ((a : ℚ) / (b : ℚ))))

/-- Keyword arguments accepted by the `MonophoneConfig` family of
constructors.  `none` means the key is absent from `**kwargs`.  The fields
listed are the keys the module itself passes (the `defaults` dictionaries
of `TriphoneConfig` and `TriphoneFmllrConfig`) together with the keys the
claims exercise; the Python `setattr` loop accepts arbitrary keys, and any
other key would only create an attribute no reader of this module uses. -/
structure Kwargs where
  align_often : Option Bool := none
  num_iters : Option Int := none
  initial_gauss_count : Option Int := none
  max_gauss_count : Option Int := none
  cluster_threshold : Option Int := none
  do_fmllr : Option Bool := none
  do_lda_mllt : Option Bool := none
  fmllr_update_type : Option String := none
  fmllr_iters : Option (List Nat) := none
  fmllr_power : Option Rat := none
  silence_weight : Option Rat := none
  realign_iters : Option (List Nat) := none
deriving DecidableEq

/-- Embeds Python's `defaults.update(kwargs)`: a key present in `kwargs`
wins over the one in `defaults`. -/
def Kwargs.update (defaults kwargs : Kwargs) : Kwargs where
  align_often := kwargs.align_often <|> defaults.align_often
  num_iters := kwargs.num_iters <|> defaults.num_iters
  initial_gauss_count := kwargs.initial_gauss_count <|> defaults.initial_gauss_count
  max_gauss_count := kwargs.max_gauss_count <|> defaults.max_gauss_count
  cluster_threshold := kwargs.cluster_threshold <|> defaults.cluster_threshold
  do_fmllr := kwargs.do_fmllr <|> defaults.do_fmllr
  do_lda_mllt := kwargs.do_lda_mllt <|> defaults.do_lda_mllt
  fmllr_update_type := kwargs.fmllr_update_type <|> defaults.fmllr_update_type
  fmllr_iters := kwargs.fmllr_iters <|> defaults.fmllr_iters
  fmllr_power := kwargs.fmllr_power <|> defaults.fmllr_power
  silence_weight := kwargs.silence_weight <|> defaults.silence_weight
  realign_iters := kwargs.realign_iters <|> defaults.realign_iters

/-- Attribute store of a `MonophoneConfig` object (also used for its
subclasses `TriphoneConfig` and `TriphoneFmllrConfig`, which add no code
beyond their constructors).  `initial_gauss_count`, `cluster_threshold`
and the fmllr attributes have no default in the base constructor, hence
`Option`. -/
structure MonophoneConfig where
  num_iters : Int
  scale_opts : List String
  beam : Int
  retry_beam : Int
  max_gauss_count : Int
  boost_silence : Rat
  realign_iters : List Nat
  stage : Int
  power : Rat
  do_fmllr : Bool
  do_lda_mllt : Bool
  initial_gauss_count : Option Int
  cluster_threshold : Option Int
  fmllr_update_type : Option String
  fmllr_iters : Option (List Nat)
  fmllr_power : Option Rat
  silence_weight : Option Rat
  align_often : Option Bool
deriving DecidableEq

/-- Embeds `MonophoneConfig.__init__` (config.py lines 56-78): fixed
defaults, the `realign_iters` branch on `kwargs.get('align_often', False)`
(note the source attaches the 21-element schedule to the True branch and
the 9-element schedule to the False branch, the reverse of its own
docstring), then the `setattr` loop, which lets a present key override the
default written earlier. -/
def MonophoneConfig.init (kwargs : Kwargs) : MonophoneConfig where
  num_iters := kwargs.num_iters.getD 40
  scale_opts := ["--transition-scale=1.0", "--acoustic-scale=0.1", "--self-loop-scale=0.1"]
  beam := 10
  retry_beam := 40
  max_gauss_count := kwargs.max_gauss_count.getD 1000
  boost_silence := 1
  realign_iters := kwargs.realign_iters.getD
    (if kwargs.align_often.getD false then
      [1, 2, 3, 4, 5, 6, 7, 8, 9, 10, 12, 14, 16, 18, 20, 23, 26, 29, 32, 35, 38]
    else
      [1, 5, 10, 15, 20, 25, 30, 35, 38])
  stage := -4
  power := 0.25
  do_fmllr := kwargs.do_fmllr.getD false
  do_lda_mllt := kwargs.do_lda_mllt.getD false
  initial_gauss_count := kwargs.initial_gauss_count
  cluster_threshold := kwargs.cluster_threshold
  fmllr_update_type := kwargs.fmllr_update_type
  fmllr_iters := kwargs.fmllr_iters
  fmllr_power := kwargs.fmllr_power
  silence_weight := kwargs.silence_weight
  align_often := kwargs.align_often

/-- Embeds the `max_iter_inc` property (config.py lines 80-82). -/
def MonophoneConfig.max_iter_inc (c : MonophoneConfig) : Int :=
  c.num_iters - 10

/-- Embeds the `inc_gauss_count` property (config.py lines 84-86):
`int((self.max_gauss_count - self.initial_gauss_count) / self.max_iter_inc)`.
Python evaluates the numerator first, so a missing `initial_gauss_count`
raises `AttributeError` before any division; the division itself is float
true division followed by `int()` truncation (`pyIntTrueDiv`). -/
def MonophoneConfig.inc_gauss_count (c : MonophoneConfig) : Except PyError Int :=
  match c.initial_gauss_count with
  | none => Except.error (PyError.attributeError "initial_gauss_count")
  | some i => pyIntTrueDiv (c.max_gauss_count - i) c.max_iter_inc

/-- The `defaults` dictionary of `TriphoneConfig.__init__`
(config.py lines 140-144). -/
def TriphoneConfig.defaults : Kwargs where
  num_iters := some 35
  initial_gauss_count := some 3100
  max_gauss_count := some 50000
  cluster_threshold := some 100
  do_lda_mllt := some false

/-- Embeds `TriphoneConfig.__init__` (config.py lines 139-146):
`defaults.update(kwargs)` then the base constructor. -/
def TriphoneConfig.init (kwargs : Kwargs) : MonophoneConfig :=
  MonophoneConfig.init (TriphoneConfig.defaults.update kwargs)

/-- The `defaults` dictionary of `TriphoneFmllrConfig.__init__`
(config.py lines 212-217). -/
def TriphoneFmllrConfig.defaults : Kwargs where
  do_fmllr := some true
  do_lda_mllt := some false
  fmllr_update_type := some "full"
  fmllr_iters := some [2, 4, 6, 12]
  fmllr_power := some 0.2
  silence_weight := some 0

/-- Embeds `TriphoneFmllrConfig.__init__` (config.py lines 211-219):
`def __init__(self, align_often=True, **kwargs)`.  The named parameter
`align_often` is bound and then never used: it is not inserted into
`defaults` and not forwarded to `super().__init__`.  Because Python binds
a keyword argument named `align_often` to the parameter, `**kwargs` can
never contain that key at this call site, which the model expresses by
clearing the field before the merge. -/
def TriphoneFmllrConfig.init (align_often : Bool) (kwargs : Kwargs) : MonophoneConfig :=
  TriphoneConfig.init (TriphoneFmllrConfig.defaults.update { kwargs with align_often := none })

/-- Keyword arguments for `LdaMlltConfig` that the claims exercise
(`setattr` accepts arbitrary keys; every attribute has a base default
here, so all fields of the store below are plain values). -/
structure LdaKwargs where
  num_iters : Option Int := none
  initial_gauss_count : Option Int := none
  max_gauss_count : Option Int := none
deriving DecidableEq

/-- Attribute store of an `LdaMlltConfig` object. -/
structure LdaMlltConfig where
  num_iters : Int
  do_fmllr : Bool
  do_lda_mllt : Bool
  scale_opts : List String
  num_gauss : Int
  beam : Int
  retry_beam : Int
  initial_gauss_count : Int
  cluster_threshold : Int
  max_gauss_count : Int
  boost_silence : Rat
  realign_iters : List Nat
  stage : Int
  power : Rat
  dim : Int
  careful : Bool
  randprune : Rat
  splice_opts : List String
  cluster_thresh : Int
  norm_vars : Bool
deriving DecidableEq

/-- Embeds `LdaMlltConfig.__init__` (config.py lines 259-286): fixed
defaults followed by the `setattr` loop. -/
def LdaMlltConfig.init (kwargs : LdaKwargs) : LdaMlltConfig where
  num_iters := kwargs.num_iters.getD 13
  do_fmllr := false
  do_lda_mllt := true
  scale_opts := ["--transition-scale=1.0", "--acoustic-scale=0.1", "--self-loop-scale=0.1"]
  num_gauss := 5000
  beam := 10
  retry_beam := 40
  initial_gauss_count := kwargs.initial_gauss_count.getD 5000
  cluster_threshold := -1
  max_gauss_count := kwargs.max_gauss_count.getD 10000
  boost_silence := 1
  realign_iters := [1, 2, 3, 4, 5, 6, 7, 8, 9, 10, 11, 12, 13]
  stage := -5
  power := 0.25
  dim := 40
  careful := false
  randprune := 4
  splice_opts := ["--left-context=3", "--right-context=3"]
  cluster_thresh := -1
  norm_vars := false

/-- Embeds the `max_iter_inc` property of `LdaMlltConfig`
(config.py lines 288-290): `self.num_iters`, with no subtraction. -/
def LdaMlltConfig.max_iter_inc (c : LdaMlltConfig) : Int :=
  c.num_iters

/-- Embeds the `inc_gauss_count` property of `LdaMlltConfig`
(config.py lines 292-294).  `initial_gauss_count` always exists here (the
constructor sets it), so no attribute fault is possible; the division is
float true division followed by `int()` truncation (`pyIntTrueDiv`). -/
def LdaMlltConfig.inc_gauss_count (c : LdaMlltConfig) : Except PyError Int :=
  pyIntTrueDiv (c.max_gauss_count - c.initial_gauss_count) c.max_iter_inc

/-- Attribute store of a `DiagUbmConfig` object. -/
structure DiagUbmConfig where
  num_iters : Int
  num_gselect : Int
  num_frames : Int
  num_gauss : Int
  num_iters_init : Int
  initial_gauss_proportion : Rat
  subsample : Int
  cleanup : Bool
  min_gaussian_weight : Rat
  remove_low_count_gaussians : Bool
  num_threads : Int
  splice_opts : List String
deriving DecidableEq

/-- Embeds `DiagUbmConfig.__init__` (config.py lines 310-324): it accepts
`**kwargs` but never reads it (no `setattr` loop), so every field is its
fixed literal. -/
def DiagUbmConfig.init (kwargs : List (String × PyVal)) : DiagUbmConfig where
  num_iters := 4
  num_gselect := 30
  num_frames := 400000
  num_gauss := 256
  num_iters_init := 20
  initial_gauss_proportion := 0.5
  subsample := 2
  cleanup := true
  min_gaussian_weight := 0.0001
  remove_low_count_gaussians := true
  num_threads := 32
  splice_opts := ["--left-context=3", "--right-context=3"]

/-- Attribute store of an `iVectorExtractorConfig` object. -/
structure iVectorExtractorConfig where
  ivector_dim : Int
  ivector_period : Int
  num_iters : Int
  num_gselect : Int
  posterior_scale : Rat
  min_post : Rat
  subsample : Int
  max_count : Int
  num_threads : Int
  num_processes : Int
  splice_opts : List String
  compress : Bool
deriving DecidableEq

/-- Embeds `iVectorExtractorConfig.__init__` (config.py lines 349-364):
accepts `**kwargs` but never reads it. -/
def iVectorExtractorConfig.init (kwargs : List (String × PyVal)) : iVectorExtractorConfig where
  ivector_dim := 100
  ivector_period := 10
  num_iters := 10
  num_gselect := 5
  posterior_scale := 0.1
  min_post := 0.025
  subsample := 2
  max_count := 0
  num_threads := 4
  num_processes := 4
  splice_opts := ["--left-context=3", "--right-context=3"]
  compress := false

/-- Attribute store of an `NnetBasicConfig` object. -/
structure NnetBasicConfig where
  num_epochs : Int
  num_epochs_extra : Int
  num_iters_final : Int
  iters_per_epoch : Int
  realign_times : Int
  beam : Int
  retry_beam : Int
  initial_learning_rate : Rat
  final_learning_rate : Rat
  bias_stddev : Rat
  pnorm_input_dim : Int
  pnorm_output_dim : Int
  p : Int
  shrink_interval : Int
  shrink : Bool
  num_frames_shrink : Int
  final_learning_rate_factor : Rat
  hidden_layer_dim : Int
  samples_per_iter : Int
  shuffle_buffer_size : Int
  add_layers_period : Int
  num_hidden_layers : Int
  modify_learning_rates : Bool
  last_layer_factor : Rat
  first_layer_factor : Rat
  splice_width : Int
  randprune : Rat
  alpha : Rat
  max_change : Rat
  mix_up : Int
  prior_subset_size : Int
  boost_silence : Rat
  update_period : Int
  num_samples_history : Int
  max_change_per_sample : Rat
  precondition_rank_in : Int
  precondition_rank_out : Int
deriving DecidableEq

/-- Embeds `NnetBasicConfig.__init__` (config.py lines 420-466): accepts
`**kwargs` but never reads it. -/
def NnetBasicConfig.init (kwargs : List (String × PyVal)) : NnetBasicConfig where
  num_epochs := 4
  num_epochs_extra := 5
  num_iters_final := 20
  iters_per_epoch := 2
  realign_times := 0
  beam := 10
  retry_beam := 15000000
  initial_learning_rate := 0.32
  final_learning_rate := 0.032
  bias_stddev := 0.5
  pnorm_input_dim := 3000
  pnorm_output_dim := 300
  p := 2
  shrink_interval := 5
  shrink := true
  num_frames_shrink := 2000
  final_learning_rate_factor := 0.5
  hidden_layer_dim := 50
  samples_per_iter := 200000
  shuffle_buffer_size := 5000
  add_layers_period := 2
  num_hidden_layers := 3
  modify_learning_rates := false
  last_layer_factor := 0.1
  first_layer_factor := 1
  splice_width := 3
  randprune := 4
  alpha := 4
  max_change := 10
  mix_up := 12000
  prior_subset_size := 10000
  boost_silence := 0.5
  update_period := 4
  num_samples_history := 2000
  max_change_per_sample := 0.075
  precondition_rank_in := 20
  precondition_rank_out := 80

/-- Overwrite-or-append of one key in an insertion-ordered dictionary: an
existing key keeps its position and gets the new value, a new key is
appended at the end (Python 3.7+ dict semantics). -/
def dictSet (d : List (String × PyVal)) (k : String) (v : PyVal) : List (String × PyVal) :=
  match d with
  | [] => [(k, v)]
  | (k2, v2) :: rest => if k2 = k then (k2, v) :: rest else (k2, v2) :: dictSet rest k v

/-- Embeds Python's `d.update(kw)` on insertion-ordered dictionaries. -/
def dictUpdate (d kw : List (String × PyVal)) : List (String × PyVal) :=
  kw.foldl (fun acc kv => dictSet acc kv.1 kv.2) d

/-- One output line per dictionary entry, in insertion order:
`'--{k}={make_safe v}'` (without the trailing newline). -/
def configLines (d : List (String × PyVal)) : List String :=
  d.map (fun kv => "--" ++ kv.1 ++ "=" ++ make_safe kv.2)

/-- The full file body: each line followed by a newline. -/
def renderFile (lines : List String) : String :=
  String.join (lines.map (fun l => l ++ "\n"))

/-- Attribute store of an `MfccConfig` object, together with the content
of the one file the object writes.  `fileContent = none` means the file
does not exist yet; `write` replaces the whole content
(the file is opened with mode `'w'`).  The file's path is determined by
`output_directory` and `job`, which never change after construction, so a
single content field models the file at `self.path`. -/
structure MfccConfig where
  job : Option Nat
  config_dict : List (String × PyVal)
  output_directory : List String
  fileContent : Option String
deriving DecidableEq

/-- Embeds `MfccConfig.write` (config.py lines 523-529): overwrite the
file with one `'--{k}={make_safe(v)}\n'` line per `config_dict` entry. -/
def MfccConfig.write (c : MfccConfig) : MfccConfig :=
  { c with fileContent := some (renderFile (configLines c.config_dict)) }

/-- Embeds `MfccConfig.__init__` (config.py lines 488-495): `kwargs`
defaults to `None` meaning `{}`, `config_dict` starts as
`{'use-energy': False, 'frame-shift': 10}` updated with `kwargs`, and the
constructor ends with `self.write()`. -/
def MfccConfig.init (output_directory : List String) (job : Option Nat)
    (kwargs : Option (List (String × PyVal))) : MfccConfig :=
  MfccConfig.write
    { job := job
      config_dict := dictUpdate
        [("use-energy", PyVal.bool false), ("frame-shift", PyVal.int 10)] (kwargs.getD [])
      output_directory := output_directory
      fileContent := none }

/-- Embeds `MfccConfig.update` (config.py lines 497-507):
`config_dict.update(kwargs)` followed by `self.write()`. -/
def MfccConfig.update (c : MfccConfig) (kwargs : List (String × PyVal)) : MfccConfig :=
  MfccConfig.write { c with config_dict := dictUpdate c.config_dict kwargs }

/-- All non-empty ancestor paths of a component path, shortest first: the
directories `os.makedirs(path, exist_ok=True)` guarantees to exist. -/
def ancestorsOf : List String → List (List String)
  | [] => []
  | a :: rest => [a] :: (ancestorsOf rest).map (fun p => a :: p)

/-- Create one directory if absent (order-preserving set insert). -/
def dirInsert (fs : List (List String)) (d : List String) : List (List String) :=
  if d ∈ fs then fs else fs ++ [d]

/-- Embeds `os.makedirs(p, exist_ok=True)`: every ancestor of `p`,
including `p` itself, is created if missing; existing directories are
left alone and cause no error. -/
def makedirs (p : List String) (fs : List (List String)) : List (List String) :=
  (ancestorsOf p).foldl dirInsert fs

/-- The directory the `config_directory` property returns:
`os.path.join(self.output_directory, 'config')`. -/
def MfccConfig.config_directory_path (c : MfccConfig) : List String :=
  c.output_directory ++ ["config"]

/-- The file name chosen by the `path` property: `'mfcc.conf'` without a
job identifier, `'mfcc.{job}.conf'` with one. -/
def MfccConfig.fileName (c : MfccConfig) : String :=
  match c.job with
  | none => "mfcc.conf"
  | some j => "mfcc." ++ toString j ++ ".conf"

/-- The path the `path` property returns (its pure value). -/
def MfccConfig.path (c : MfccConfig) : List String :=
  c.config_directory_path ++ [c.fileName]

/-- Embeds the `path` property together with its side effect
(config.py lines 509-521): reading `path` reads `config_directory`, which
runs `os.makedirs(..., exist_ok=True)` on the config subdirectory before
returning it.  Returns the path and the updated set of directories. -/
def MfccConfig.derivePath (c : MfccConfig) (fs : List (List String)) :
    List String × List (List String) :=
  (c.config_directory_path ++ [c.fileName], makedirs c.config_directory_path fs)

/-! Helper lemmas (shared). -/

/-- Existing directories survive a `dirInsert`. -/
theorem mem_dirInsert_of_mem {x : List String} {fs : List (List String)}
    (d : List String) (h : x ∈ fs) : x ∈ dirInsert fs d := by
  unfold dirInsert
  split
  · exact h
  · exact List.mem_append_left _ h

/-- The inserted directory is present after a `dirInsert`. -/
theorem mem_dirInsert_self (d : List String) (fs : List (List String)) :
    d ∈ dirInsert fs d := by
  unfold dirInsert
  split
  · assumption
  · exact List.mem_append_right _ (by simp)

/-- Existing directories survive a fold of `dirInsert`s. -/
theorem mem_foldl_dirInsert_of_mem :
    ∀ (l : List (List String)) (fs : List (List String)) (x : List String),
      x ∈ fs → x ∈ l.foldl dirInsert fs := by
  intro l
  induction l with
  | nil => intro fs x h; simpa using h
  | cons d rest ih =>
    intro fs x h
    simpa using ih (dirInsert fs d) x (mem_dirInsert_of_mem d h)

/-- Every directory in the fold's worklist is present afterwards. -/
theorem mem_foldl_dirInsert_self :
    ∀ (l : List (List String)) (fs : List (List String)) (d : List String),
      d ∈ l → d ∈ l.foldl dirInsert fs := by
  intro l
  induction l with
  | nil => intro fs d h; cases h
  | cons a rest ih =>
    intro fs d h
    rcases List.mem_cons.mp h with h | h
    · subst h
      simpa using mem_foldl_dirInsert_of_mem rest (dirInsert fs d) d (mem_dirInsert_self d fs)
    · simpa using ih (dirInsert fs a) d h

/-- A fold of `dirInsert`s over directories that all already exist is the
identity. -/
theorem foldl_dirInsert_of_forall_mem :
    ∀ (l : List (List String)) (fs : List (List String)),
      (∀ d ∈ l, d ∈ fs) → l.foldl dirInsert fs = fs := by
  intro l
  induction l with
  | nil => intro fs _; rfl
  | cons a rest ih =>
    intro fs h
    have ha : dirInsert fs a = fs := by
      unfold dirInsert
      exact if_pos (h a (List.mem_cons_self a rest))
    simp only [List.foldl_cons, ha]
    exact ih fs (fun d hd => h d (List.mem_cons_of_mem a hd))

/-- Running `makedirs` twice on the same path changes nothing the second
time. -/
theorem makedirs_idem (p : List String) (fs : List (List String)) :
    makedirs p (makedirs p fs) = makedirs p fs := by
  unfold makedirs
  exact foldl_dirInsert_of_forall_mem _ _
    (fun d hd => mem_foldl_dirInsert_self _ fs d hd)

/-- Correctness of the fuel-driven logarithm: with enough fuel it brackets
`n` between consecutive powers of two. -/
theorem log2fuel_spec :
    ∀ (fuel n : Nat), 0 < n → n ≤ fuel →
      2 ^ log2fuel fuel n ≤ n ∧ n < 2 ^ (log2fuel fuel n + 1) := by
  intro fuel
  induction fuel with
  | zero => intro n h1 h2; omega
  | succ fuel ih =>
    intro n h1 h2
    rw [log2fuel]
    by_cases hn2 : n < 2
    · rw [if_pos hn2]
      simp
      omega
    · rw [if_neg hn2]
      have hrec := ih (n / 2) (by omega) (by omega)
      have e1 : 2 ^ (log2fuel fuel (n / 2) + 1) = 2 * 2 ^ log2fuel fuel (n / 2) := by
        rw [pow_succ]; ring
      have e2 : 2 ^ (log2fuel fuel (n / 2) + 1 + 1) = 2 * 2 ^ (log2fuel fuel (n / 2) + 1) := by
        rw [pow_succ _ (log2fuel fuel (n / 2) + 1)]; ring
      constructor
      · rw [e1]; omega
      · rw [e2, e1]; omega

/-- Correctness of `natLog2` on positive naturals. -/
theorem natLog2_spec (n : Nat) (hn : 0 < n) :
    2 ^ natLog2 n ≤ n ∧ n < 2 ^ (natLog2 n + 1) :=
  log2fuel_spec n n hn le_rfl

/-- The shifted-logarithm formula brackets the fraction `n / d` between
consecutive powers of two (stated in the exact shape `floorLog2Rat`
computes). -/
theorem floorLog2_nd (n d : ℕ) (hn : 0 < n) (hd : 0 < d) :
    (2 : ℚ) ^ ((natLog2 (n * 2 ^ (natLog2 d + 2) / d) : ℤ) - ((natLog2 d + 2 : ℕ) : ℤ)) ≤ (n : ℚ) / d ∧
    (n : ℚ) / d <
      (2 : ℚ) ^ ((natLog2 (n * 2 ^ (natLog2 d + 2) / d) : ℤ) - ((natLog2 d + 2 : ℕ) : ℤ) + 1) := by
  set S : ℕ := natLog2 d + 2 with hS_def
  set t : ℕ := n * 2 ^ S / d with ht_def
  set L : ℕ := natLog2 t with hL_def
  have hdS : d < 2 ^ S :=
    lt_of_lt_of_le (natLog2_spec d hd).2 (Nat.pow_le_pow_right (by norm_num) (by omega))
  have hts : d ≤ n * 2 ^ S :=
    le_trans hdS.le (Nat.le_mul_of_pos_left _ hn)
  have ht : 0 < t := Nat.div_pos hts hd
  have hL1 : 2 ^ L ≤ t := (natLog2_spec t ht).1
  have hL2 : t < 2 ^ (L + 1) := (natLog2_spec t ht).2
  have hb1 : t * d ≤ n * 2 ^ S := Nat.div_mul_le_self _ _
  have hb2 : n * 2 ^ S < (t + 1) * d := by
    have h := Nat.div_add_mod (n * 2 ^ S) d
    have h2 : n * 2 ^ S % d < d := Nat.mod_lt _ hd
    rw [← ht_def] at h
    have h3 : (t + 1) * d = d * t + d := by ring
    linarith
  have hdQ : (0 : ℚ) < (d : ℚ) := by exact_mod_cast hd
  have hscaled_lo : ((2 : ℚ) ^ (L : ℕ)) ≤ (n : ℚ) / d * 2 ^ (S : ℕ) := by
    rw [div_mul_eq_mul_div, le_div_iff₀ hdQ]
    calc ((2 : ℚ) ^ (L : ℕ)) * d ≤ (t : ℚ) * d :=
          mul_le_mul_of_nonneg_right (by exact_mod_cast hL1) hdQ.le
      _ ≤ (n : ℚ) * 2 ^ (S : ℕ) := by exact_mod_cast hb1
  have hscaled_hi : (n : ℚ) / d * 2 ^ (S : ℕ) < (2 : ℚ) ^ (L + 1) := by
    rw [div_mul_eq_mul_div, div_lt_iff₀ hdQ]
    calc (n : ℚ) * 2 ^ (S : ℕ) < ((t : ℚ) + 1) * d := by exact_mod_cast hb2
      _ ≤ (2 : ℚ) ^ (L + 1) * d := by
          have ht1 : ((t : ℚ) + 1) ≤ (2 : ℚ) ^ (L + 1) := by exact_mod_cast hL2
          exact mul_le_mul_of_nonneg_right ht1 hdQ.le
  have h2S : (0 : ℚ) < (2 : ℚ) ^ (S : ℕ) := by positivity
  constructor
  · rw [show ((L : ℤ) - (S : ℤ)) = (L : ℤ) + (-(S : ℤ)) by ring,
      zpow_add₀ (by norm_num : (2 : ℚ) ≠ 0), zpow_natCast, zpow_neg, zpow_natCast]
    rw [mul_inv_le_iff₀ h2S]
    exact hscaled_lo
  · rw [show ((L : ℤ) - (S : ℤ) + 1) = ((L + 1 : ℕ) : ℤ) + (-(S : ℤ)) by push_cast; ring,
      zpow_add₀ (by norm_num : (2 : ℚ) ≠ 0), zpow_natCast, zpow_neg, zpow_natCast]
    rw [lt_mul_inv_iff₀ h2S]
    exact hscaled_hi

/-- Correctness of `floorLog2Rat`: it brackets a positive rational
between consecutive powers of two. -/
theorem floorLog2Rat_spec (q : ℚ) (hq : 0 < q) :
    (2 : ℚ) ^ floorLog2Rat q ≤ q ∧ q < (2 : ℚ) ^ (floorLog2Rat q + 1) := by
  have hnum : 0 < q.num := Rat.num_pos.mpr hq
  have hn : 0 < q.num.toNat := by omega
  have hq_eq : ((q.num.toNat : ℕ) : ℚ) / ((q.den : ℕ) : ℚ) = q := by
    have h1 : ((q.num.toNat : ℤ) : ℚ) = (q.num : ℚ) := by
      rw [Int.toNat_of_nonneg hnum.le]
    have h2 : ((q.num.toNat : ℕ) : ℚ) = (q.num : ℚ) := by exact_mod_cast h1
    rw [h2]
    exact Rat.num_div_den q
  have h := floorLog2_nd q.num.toNat q.den hn q.den_pos
  rw [hq_eq] at h
  exact h

/-- The rounded significand is within half a unit of the scaled value
(round-to-nearest, ties either way). -/
theorem b64m_dist (a : ℚ) : |(b64m a : ℚ) - a * 2 ^ b64scale a| ≤ 1 / 2 := by
  have h1 : ((⌊a * 2 ^ b64scale a⌋ : ℤ) : ℚ) ≤ a * 2 ^ b64scale a :=
    Int.floor_le _
  have h2 : a * 2 ^ b64scale a < ((⌊a * 2 ^ b64scale a⌋ : ℤ) : ℚ) + 1 :=
    Int.lt_floor_add_one _
  rw [b64m]
  split_ifs with hA hB hC
  · rw [abs_le]; constructor <;> push_cast <;> linarith
  · rw [abs_le]; constructor <;> linarith
  · push_neg at hA hB
    rw [abs_le]; constructor <;> linarith
  · push_neg at hA hB
    rw [abs_le]; constructor <;> push_cast <;> linarith

/-- Key floating-point fact: for a numerator below `2^53` and a positive
denominator, rounding the exact quotient `n / d` to binary64 cannot cross
an integer boundary, so the rounded value still lies in
`[n / d, n / d + 1)` (floor-division bracket).  The upper bound uses the
gap `1/d` between the quotient and the next integer: crossing it would
force `d ≥ 2^(53-k)` and hence `n ≥ 2^53`. -/
theorem roundPos_n_div_d (n d : ℕ) (hd : 0 < d) (hn : n < 2 ^ 53) (hn0 : 0 < n) :
    ((n / d : ℕ) : ℚ) ≤ roundPos ((n : ℚ) / d) ∧
    roundPos ((n : ℚ) / d) < ((n / d : ℕ) : ℚ) + 1 := by
  have hdQ : (0 : ℚ) < (d : ℚ) := by exact_mod_cast hd
  have hnQ : (0 : ℚ) < (n : ℚ) := by exact_mod_cast hn0
  set q : ℚ := (n : ℚ) / d with hq_def
  have hq : 0 < q := div_pos hnQ hdQ
  have h2_53 : ((2 ^ 53 : ℕ) : ℚ) = (2 : ℚ) ^ (53 : ℤ) := by norm_num
  have hq53 : q < (2 : ℚ) ^ (53 : ℤ) := by
    rw [← h2_53]
    calc q ≤ (n : ℚ) := by
          rw [hq_def]
          exact div_le_self hnQ.le (by exact_mod_cast hd)
      _ < ((2 ^ 53 : ℕ) : ℚ) := by exact_mod_cast hn
  obtain ⟨hk1, hk2⟩ := floorLog2Rat_spec q hq
  set k : ℤ := floorLog2Rat q with hk_def
  have hk52 : k ≤ 52 := by
    by_contra hcon
    push_neg at hcon
    have h53 : (2 : ℚ) ^ (53 : ℤ) ≤ (2 : ℚ) ^ k := by
      apply zpow_le_zpow_right₀ (by norm_num) (by omega)
    linarith
  have hs_eq : b64scale q = 52 - k := by rw [b64scale, ← hk_def]
  set s : ℤ := 52 - k with hs_def
  have hs0 : 0 ≤ s := by omega
  have h2s : (0 : ℚ) < 2 ^ s := zpow_pos (by norm_num) s
  have h2s' : (0 : ℚ) < 2 ^ (-s) := zpow_pos (by norm_num) _
  set x : ℚ := q * 2 ^ s with hx_def
  have hx_lo : (2 : ℚ) ^ (52 : ℤ) ≤ x := by
    rw [hx_def]
    calc (2 : ℚ) ^ (52 : ℤ) = 2 ^ k * 2 ^ s := by
          rw [← zpow_add₀ (by norm_num : (2 : ℚ) ≠ 0)]
          congr 1
          omega
      _ ≤ q * 2 ^ s := mul_le_mul_of_nonneg_right hk1 h2s.le
  have hx_hi : x < (2 : ℚ) ^ (53 : ℤ) := by
    rw [hx_def]
    calc q * 2 ^ s < 2 ^ (k + 1) * 2 ^ s := mul_lt_mul_of_pos_right hk2 h2s
      _ = (2 : ℚ) ^ (53 : ℤ) := by
          rw [← zpow_add₀ (by norm_num : (2 : ℚ) ≠ 0)]
          congr 1
          omega
  set m : ℤ := b64m q with hm_def
  have hdist : |(m : ℚ) - x| ≤ 1 / 2 := by
    have h := b64m_dist q
    rw [hs_eq] at h
    rw [hm_def, hx_def, hs_def]
    exact h
  have hrp : roundPos q = (m : ℚ) * 2 ^ (-s) := by
    rw [roundPos, hs_eq, ← hm_def]
  set f : ℕ := n / d with hf_def
  have hf1 : (f : ℚ) ≤ q := by
    rw [hq_def, le_div_iff₀ hdQ]
    exact_mod_cast Nat.div_mul_le_self n d
  have hf2 : q < (f : ℚ) + 1 := by
    rw [hq_def, div_lt_iff₀ hdQ]
    have h := Nat.div_add_mod n d
    have h2 : n % d < d := Nat.mod_lt _ hd
    rw [← hf_def] at h
    have h3 : n < (f + 1) * d := by
      have h4 : (f + 1) * d = d * f + d := by ring
      omega
    calc (n : ℚ) < (((f + 1) * d : ℕ) : ℚ) := by exact_mod_cast h3
      _ = ((f : ℚ) + 1) * d := by push_cast; ring
  have habs := abs_le.mp hdist
  have hcancel : (2 : ℚ) ^ s * 2 ^ (-s) = 1 := by
    rw [← zpow_add₀ (by norm_num : (2 : ℚ) ≠ 0)]
    simp
  constructor
  · rw [hrp]
    have hm_lo : (f : ℚ) * 2 ^ s ≤ (m : ℚ) := by
      have e1 : x - 1 / 2 ≤ (m : ℚ) := by linarith [habs.1]
      have e2 : (f : ℚ) * 2 ^ s ≤ x := by
        rw [hx_def]
        exact mul_le_mul_of_nonneg_right hf1 h2s.le
      obtain ⟨s2, hs2⟩ : ∃ s2 : ℕ, s = (s2 : ℤ) := ⟨s.toNat, (Int.toNat_of_nonneg hs0).symm⟩
      have hFq : (((f : ℤ) * 2 ^ s2 : ℤ) : ℚ) = (f : ℚ) * 2 ^ s := by
        rw [hs2]
        push_cast [zpow_natCast]
        ring
      by_contra hcon
      push_neg at hcon
      have hm_int : m < (f : ℤ) * 2 ^ s2 := by
        have h5 : (m : ℚ) < (((f : ℤ) * 2 ^ s2 : ℤ) : ℚ) := by rw [hFq]; exact hcon
        exact_mod_cast h5
      have hm_le : (m : ℚ) ≤ (((f : ℤ) * 2 ^ s2 : ℤ) : ℚ) - 1 := by
        have h6 : ((m + 1 : ℤ) : ℚ) ≤ (((f : ℤ) * 2 ^ s2 : ℤ) : ℚ) := by exact_mod_cast hm_int
        push_cast at h6
        push_cast
        linarith
      rw [hFq] at hm_le
      linarith
    calc (f : ℚ) = (f : ℚ) * 2 ^ s * 2 ^ (-s) := by rw [mul_assoc, hcancel, mul_one]
      _ ≤ (m : ℚ) * 2 ^ (-s) := mul_le_mul_of_nonneg_right hm_lo h2s'.le
  · rw [hrp]
    by_contra hcon
    push_neg at hcon
    have hm_hi : ((f : ℚ) + 1) * 2 ^ s ≤ (m : ℚ) := by
      calc ((f : ℚ) + 1) * 2 ^ s ≤ (m : ℚ) * 2 ^ (-s) * 2 ^ s :=
            mul_le_mul_of_nonneg_right hcon h2s.le
        _ = (m : ℚ) := by rw [mul_assoc, mul_comm ((2 : ℚ) ^ (-s)), hcancel, mul_one]
    have e1 : (m : ℚ) ≤ x + 1 / 2 := by linarith [habs.2]
    have hx_ge : ((f : ℚ) + 1) * 2 ^ s - 1 / 2 ≤ x := by linarith
    have hq_ge : (f : ℚ) + 1 - 2 ^ (-s) / 2 ≤ q := by
      have h6 : (((f : ℚ) + 1) * 2 ^ s - 1 / 2) * 2 ^ (-s) ≤ x * 2 ^ (-s) :=
        mul_le_mul_of_nonneg_right hx_ge h2s'.le
      have h7 : x * 2 ^ (-s) = q := by
        rw [hx_def, mul_assoc, hcancel, mul_one]
      have h8 : (((f : ℚ) + 1) * 2 ^ s - 1 / 2) * 2 ^ (-s) =
          ((f : ℚ) + 1) * (2 ^ s * 2 ^ (-s)) - 2 ^ (-s) / 2 := by ring
      rw [h8, hcancel, mul_one, h7] at h6
      exact h6
    have hgap : 1 / (d : ℚ) ≤ (f : ℚ) + 1 - q := by
      have h := Nat.div_add_mod n d
      have h2 : n % d < d := Nat.mod_lt _ hd
      rw [← hf_def] at h
      have h9 : n + 1 ≤ (f + 1) * d := by
        have h4 : (f + 1) * d = d * f + d := by ring
        omega
      have h10 : (1 : ℚ) ≤ ((f : ℚ) + 1) * d - n := by
        have h11 : ((n + 1 : ℕ) : ℚ) ≤ (((f + 1) * d : ℕ) : ℚ) := by exact_mod_cast h9
        push_cast at h11
        linarith
      have h12 : (f : ℚ) + 1 - q = (((f : ℚ) + 1) * d - n) / d := by
        rw [hq_def]
        field_simp
      rw [h12, div_le_div_iff₀ hdQ hdQ]
      have h13 := mul_le_mul_of_nonneg_right h10 hdQ.le
      linarith
    have hcomb : 1 / (d : ℚ) ≤ 2 ^ (-s) / 2 := by linarith
    have hd_ge : (2 : ℚ) ^ (s + 1) ≤ (d : ℚ) := by
      have h13 : (2 : ℚ) ^ (-s) / 2 = ((2 : ℚ) ^ (s + 1))⁻¹ := by
        rw [← zpow_neg]
        rw [show (-(s + 1) : ℤ) = -s - 1 by ring]
        rw [zpow_sub₀ (by norm_num : (2 : ℚ) ≠ 0)]
        norm_num
      rw [h13, one_div] at hcomb
      exact (inv_le_inv₀ hdQ (zpow_pos (by norm_num) _)).mp hcomb
    have hqd : q * d = (n : ℚ) := by
      rw [hq_def]
      field_simp
    have hn_ge : (2 : ℚ) ^ (53 : ℤ) ≤ (n : ℚ) := by
      calc (2 : ℚ) ^ (53 : ℤ) = 2 ^ k * 2 ^ (s + 1) := by
            rw [← zpow_add₀ (by norm_num : (2 : ℚ) ≠ 0)]
            congr 1
            omega
        _ ≤ q * d := mul_le_mul hk1 hd_ge (zpow_pos (by norm_num) _).le hq.le
        _ = (n : ℚ) := hqd
    have hn_lt : (n : ℚ) < (2 : ℚ) ^ (53 : ℤ) := by
      rw [← h2_53]
      exact_mod_cast hn
    linarith

/-- Python's `int(a / b)` agrees with floor division for non-negative
numerators below `2^53` and positive denominators: the binary64 rounding
of the quotient cannot cross an integer boundary there. -/
theorem pyIntTrueDiv_eq_fdiv (a b : Int) (h0 : 0 ≤ a) (h53 : a < 2 ^ 53) (hb : 0 < b) :
    pyIntTrueDiv a b = Except.ok (Int.fdiv a b) := by
  lift a to ℕ using h0 with n
  lift b to ℕ using hb.le with d
  have hd : 0 < d := by exact_mod_cast hb
  have hn53 : n < 2 ^ 53 := by exact_mod_cast h53
  have hbz : ¬ ((d : ℤ) = 0) := by exact_mod_cast hd.ne'
  rcases Nat.eq_zero_or_pos n with hn0 | hn0
  · subst hn0
    rw [pyIntTrueDiv, if_neg hbz]
    have hq0 : (((0 : ℕ) : ℤ) : ℚ) / (((d : ℕ) : ℤ) : ℚ) = 0 := by norm_num
    rw [hq0]
    rw [show roundB64 0 = 0 from if_pos rfl]
    rw [if_neg (by norm_num)]
    rw [show pyTrunc 0 = 0 by rw [pyTrunc, if_pos le_rfl]; exact Int.floor_zero]
    rw [show Int.fdiv ((0 : ℕ) : ℤ) ((d : ℕ) : ℤ) = (((0 / d : ℕ) : ℕ) : ℤ) from
      (Int.ofNat_fdiv 0 d).symm]
    norm_num
  · obtain ⟨hlo, hhi⟩ := roundPos_n_div_d n d hd hn53 hn0
    have hdQ : (0 : ℚ) < (d : ℚ) := by exact_mod_cast hd
    have hq : (0 : ℚ) < (n : ℚ) / d := div_pos (by exact_mod_cast hn0) hdQ
    have hcast : (((n : ℕ) : ℤ) : ℚ) / (((d : ℕ) : ℤ) : ℚ) = (n : ℚ) / (d : ℚ) := by
      push_cast
      ring
    rw [pyIntTrueDiv, if_neg hbz, hcast]
    have hrB : roundB64 ((n : ℚ) / d) = roundPos ((n : ℚ) / d) := by
      rw [roundB64, if_neg hq.ne', if_neg (not_lt.mpr hq.le)]
    rw [hrB]
    have hf_lt : ((n / d : ℕ) : ℚ) + 1 ≤ (2 : ℚ) ^ (54 : ℕ) := by
      have h1 : (n / d : ℕ) < 2 ^ 53 := lt_of_le_of_lt (Nat.div_le_self n d) hn53
      have h2 : ((n / d : ℕ) : ℚ) < ((2 ^ 53 : ℕ) : ℚ) := by exact_mod_cast h1
      have h3 : ((2 ^ 53 : ℕ) : ℚ) + 1 ≤ (2 : ℚ) ^ (54 : ℕ) := by norm_num
      linarith
    have hpos : 0 ≤ roundPos ((n : ℚ) / d) := le_trans (by positivity) hlo
    have hover : ¬ (((2 ^ 1024 : ℕ) : ℚ) ≤ |roundPos ((n : ℚ) / d)|) := by
      rw [abs_of_nonneg hpos]
      push_neg
      calc roundPos ((n : ℚ) / d) < ((n / d : ℕ) : ℚ) + 1 := hhi
        _ ≤ (2 : ℚ) ^ (54 : ℕ) := hf_lt
        _ < ((2 ^ 1024 : ℕ) : ℚ) := by push_cast; norm_num
    rw [if_neg hover]
    congr 1
    rw [pyTrunc, if_pos hpos]
    have hfl : ⌊roundPos ((n : ℚ) / d)⌋ = ((n / d : ℕ) : ℤ) := by
      rw [Int.floor_eq_iff]
      constructor
      · exact_mod_cast hlo
      · push_cast
        exact hhi
    rw [hfl]
    exact Int.ofNat_fdiv n d

/-! Claim theorems. -/

/-- Claim C1 (code bug evaluation).  The source of
`MonophoneConfig.__init__` attaches the 21-element realignment schedule to
`align_often=True` and the 9-element schedule `[1,5,10,15,20,25,30,35,38]`
to `align_often` false or unset — exactly the reverse of the claim and of
the class's own docstring.  This theorem evaluates the embedded code on
the failing inputs. -/
theorem claim_C1_realign_iters_swapped :
    (MonophoneConfig.init { align_often := some true }).realign_iters =
      [1, 2, 3, 4, 5, 6, 7, 8, 9, 10, 12, 14, 16, 18, 20, 23, 26, 29, 32, 35, 38] ∧
    (MonophoneConfig.init { align_often := some false }).realign_iters =
      [1, 5, 10, 15, 20, 25, 30, 35, 38] ∧
    (MonophoneConfig.init {}).realign_iters = [1, 5, 10, 15, 20, 25, 30, 35, 38] :=
  ⟨rfl, rfl, rfl⟩

/-- Claim C2 (code bug evaluation).  `TriphoneFmllrConfig.__init__` binds
`align_often` as a named parameter with default `True` but never forwards
it to the base constructor, so the chosen value has no effect at all: two
constructions differing only in `align_often` yield identical objects, and
`realign_iters` is always `[1,5,10,15,20,25,30,35,38]` (the base
constructor's unset-`align_often` branch) — contradicting the claim that
the two schedules differ. -/
theorem claim_C2_align_often_ignored :
    (∀ (b : Bool) (kwargs : Kwargs),
      TriphoneFmllrConfig.init b kwargs = TriphoneFmllrConfig.init (!b) kwargs) ∧
    (TriphoneFmllrConfig.init true {}).realign_iters = [1, 5, 10, 15, 20, 25, 30, 35, 38] ∧
    (TriphoneFmllrConfig.init false {}).realign_iters = [1, 5, 10, 15, 20, 25, 30, 35, 38] :=
  ⟨fun _ _ => rfl, rfl, rfl⟩

/-- Claim C3.  After construction and after every `update`, the file at
the object's path holds exactly one `'--key=value'` line per
`config_dict` entry, in insertion order, values rendered by `make_safe`,
the previous content fully replaced; constructing with overrides
`{'use-energy': True}` and output directory `D` yields the file
`D/config/mfcc.conf` with exactly the lines `--use-energy=true` then
`--frame-shift=10`. -/
theorem claim_C3_write_invariant :
    (∀ (od : List String) (job : Option Nat) (kw : Option (List (String × PyVal))),
      (MfccConfig.init od job kw).fileContent =
        some (renderFile (configLines (MfccConfig.init od job kw).config_dict))) ∧
    (∀ (c : MfccConfig) (kw : List (String × PyVal)),
      (MfccConfig.update c kw).fileContent =
        some (renderFile (configLines (MfccConfig.update c kw).config_dict))) ∧
    (∀ D : List String,
      (MfccConfig.init D none (some [("use-energy", PyVal.bool true)])).config_dict =
        [("use-energy", PyVal.bool true), ("frame-shift", PyVal.int 10)]) ∧
    (∀ D : List String,
      (MfccConfig.init D none (some [("use-energy", PyVal.bool true)])).fileContent =
        some "--use-energy=true\n--frame-shift=10\n") ∧
    (∀ D : List String,
      (MfccConfig.init D none (some [("use-energy", PyVal.bool true)])).path =
        D ++ ["config", "mfcc.conf"]) := by
  refine ⟨fun _ _ _ => rfl, fun _ _ => rfl, fun _ => rfl, fun _ => rfl, fun D => ?_⟩
  simp [MfccConfig.path, MfccConfig.config_directory_path, MfccConfig.fileName,
    MfccConfig.init, MfccConfig.write]

/-- Claim C5.  Reading `inc_gauss_count` faults with `ZeroDivisionError`
when `max_iter_inc` is zero (on the base configuration that is exactly
`num_iters = 10`), faults with `AttributeError` whenever
`initial_gauss_count` was never set, the base constructor supplies no
default for `initial_gauss_count`, and the bare base configuration
therefore faults with the missing-attribute error; the `Except` error
value models uncaught propagation to the caller. -/
theorem claim_C5_inc_gauss_count_faults :
    (∀ (c : MonophoneConfig) (i : Int), c.initial_gauss_count = some i →
      c.num_iters = 10 →
      c.inc_gauss_count = Except.error PyError.zeroDivisionError) ∧
    (∀ c : MonophoneConfig, c.initial_gauss_count = none →
      c.inc_gauss_count = Except.error (PyError.attributeError "initial_gauss_count")) ∧
    (∀ kwargs : Kwargs, kwargs.initial_gauss_count = none →
      (MonophoneConfig.init kwargs).initial_gauss_count = none) ∧
    (MonophoneConfig.init {}).inc_gauss_count =
      Except.error (PyError.attributeError "initial_gauss_count") := by
  refine ⟨?_, ?_, ?_, rfl⟩
  · intro c i hi hn
    have h0 : c.max_iter_inc = 0 := by
      unfold MonophoneConfig.max_iter_inc; omega
    simp [MonophoneConfig.inc_gauss_count, hi, h0, pyIntTrueDiv]
  · intro c hc
    simp [MonophoneConfig.inc_gauss_count, hc]
  · intro kwargs hk
    simp [MonophoneConfig.init, hk]

/-- Witness for claim C5: with `num_iters=10` and `initial_gauss_count`
set, reading `inc_gauss_count` is the division-by-zero error; on the bare
base configuration it is the missing-attribute error. -/
theorem claim_C5_witness :
    (MonophoneConfig.init { num_iters := some 10, initial_gauss_count := some 500 }).inc_gauss_count =
      Except.error PyError.zeroDivisionError ∧
    (MonophoneConfig.init {}).inc_gauss_count =
      Except.error (PyError.attributeError "initial_gauss_count") :=
  ⟨claim_C5_inc_gauss_count_faults.1 _ 500 rfl rfl,
   claim_C5_inc_gauss_count_faults.2.1 _ rfl⟩

/-- Claim C6.  For every value of `num_iters`, `max_iter_inc` is
`num_iters - 10` on the base training-stage configuration
(`MonophoneConfig`) and `num_iters` on `LdaMlltConfig`. -/
theorem claim_C6_max_iter_inc :
    (∀ c : MonophoneConfig, c.max_iter_inc = c.num_iters - 10) ∧
    (∀ c : LdaMlltConfig, c.max_iter_inc = c.num_iters) :=
  ⟨fun _ => rfl, fun _ => rfl⟩

/-- Claim C7.  Constructing `TriphoneFmllrConfig()` with no arguments
(so `align_often` takes its default `True` and `**kwargs` is empty) yields
`do_fmllr=True`, `do_lda_mllt=False`, `fmllr_update_type='full'`,
`fmllr_iters=[2,4,6,12]`, and `realign_iters=[1,5,10,15,20,25,30,35,38]`. -/
theorem claim_C7_triphone_fmllr_defaults :
    (TriphoneFmllrConfig.init true {}).do_fmllr = true ∧
    (TriphoneFmllrConfig.init true {}).do_lda_mllt = false ∧
    (TriphoneFmllrConfig.init true {}).fmllr_update_type = some "full" ∧
    (TriphoneFmllrConfig.init true {}).fmllr_iters = some [2, 4, 6, 12] ∧
    (TriphoneFmllrConfig.init true {}).realign_iters = [1, 5, 10, 15, 20, 25, 30, 35, 38] :=
  ⟨rfl, rfl, rfl, rfl, rfl⟩

/-- Claim C8.  `make_safe` is total (it is a Lean function on all of
`PyVal`), renders `True` as `"true"` and `False` as `"false"`, and renders
every non-boolean value by its natural string form (`10` as `"10"`, a
float such as `0.1` by its decimal rendering `"0.1"`). -/
theorem claim_C8_make_safe :
    make_safe (PyVal.bool true) = "true" ∧
    make_safe (PyVal.bool false) = "false" ∧
    make_safe (PyVal.int 10) = "10" ∧
    make_safe (PyVal.float "0.1") = "0.1" ∧
    (∀ b : Bool, make_safe (PyVal.bool b) = if b then "true" else "false") ∧
    (∀ n : Int, make_safe (PyVal.int n) = toString n) ∧
    (∀ s : String, make_safe (PyVal.str s) = s) ∧
    (∀ r : String, make_safe (PyVal.float r) = r) :=
  ⟨rfl, rfl, rfl, rfl, fun b => by cases b <;> rfl, fun _ => rfl, fun _ => rfl, fun _ => rfl⟩

/-- Claim C9.  The derived path is `output_directory/config/mfcc.conf`
without a job identifier and `output_directory/config/mfcc.<j>.conf` with
job `j`; deriving the path creates the `config` subdirectory and all its
ancestors on demand, and doing so twice is the same as doing it once
(idempotent). -/
theorem claim_C9_path :
    (∀ (c : MfccConfig) (fs : List (List String)), c.job = none →
      (c.derivePath fs).1 = c.output_directory ++ ["config", "mfcc.conf"]) ∧
    (∀ (c : MfccConfig) (fs : List (List String)) (j : Nat), c.job = some j →
      (c.derivePath fs).1 =
        c.output_directory ++ ["config", "mfcc." ++ toString j ++ ".conf"]) ∧
    (∀ (c : MfccConfig) (fs : List (List String)),
      ∀ d ∈ ancestorsOf c.config_directory_path, d ∈ (c.derivePath fs).2) ∧
    (∀ (c : MfccConfig) (fs : List (List String)),
      (c.derivePath (c.derivePath fs).2).2 = (c.derivePath fs).2) := by
  refine ⟨?_, ?_, ?_, ?_⟩
  · intro c fs hj
    simp [MfccConfig.derivePath, MfccConfig.config_directory_path, MfccConfig.fileName, hj]
  · intro c fs j hj
    simp [MfccConfig.derivePath, MfccConfig.config_directory_path, MfccConfig.fileName, hj]
  · intro c fs d hd
    simpa [MfccConfig.derivePath, makedirs] using
      mem_foldl_dirInsert_self _ fs d hd
  · intro c fs
    simpa [MfccConfig.derivePath] using makedirs_idem c.config_directory_path fs

/-- Witness for claim C9: with output directory `D`, the derived path is
`D/config/mfcc.conf` without a job identifier and `D/config/mfcc.3.conf`
with job `3`. -/
theorem claim_C9_witness :
    (({ job := none, config_dict := [], output_directory := ["D"],
        fileContent := none } : MfccConfig).derivePath []).1 =
      ["D", "config", "mfcc.conf"] ∧
    (({ job := some 3, config_dict := [], output_directory := ["D"],
        fileContent := none } : MfccConfig).derivePath []).1 =
      ["D", "config", "mfcc.3.conf"] :=
  ⟨claim_C9_path.1 _ [] rfl, claim_C9_path.2.1 _ [] 3 rfl⟩

/-- Claim C10.  The constructors of `DiagUbmConfig`,
`iVectorExtractorConfig` and `NnetBasicConfig` ignore every keyword
argument (there is no `setattr` loop): any `kwargs` mapping produces the
same object as the empty one, and every field is its fixed default. -/
theorem claim_C10_kwargs_ignored :
    (∀ kwargs : List (String × PyVal), DiagUbmConfig.init kwargs = DiagUbmConfig.init []) ∧
    (∀ kwargs : List (String × PyVal),
      iVectorExtractorConfig.init kwargs = iVectorExtractorConfig.init []) ∧
    (∀ kwargs : List (String × PyVal), NnetBasicConfig.init kwargs = NnetBasicConfig.init []) ∧
    (DiagUbmConfig.init [("num-iters", PyVal.int 99)]).num_iters = 4 ∧
    (DiagUbmConfig.init [("num-gauss", PyVal.int 99)]).num_gauss = 256 ∧
    (iVectorExtractorConfig.init [("ivector-dim", PyVal.int 7)]).ivector_dim = 100 ∧
    (iVectorExtractorConfig.init [("num-iters", PyVal.int 7)]).num_iters = 10 ∧
    (NnetBasicConfig.init [("num-epochs", PyVal.int 9)]).num_epochs = 4 ∧
    (NnetBasicConfig.init [("beam", PyVal.int 9)]).beam = 10 :=
  ⟨fun _ => rfl, fun _ => rfl, fun _ => rfl, rfl, rfl, rfl, rfl, rfl, rfl⟩

set_option maxRecDepth 10000 in
/-- Claim C4 (counterexample to the claim as stated).  The claim asserts
floor-division semantics for every configuration with non-negative
operands, but the code computes `int((max-init)/inc)` with float true
division: at `max_gauss_count - initial_gauss_count = 29999999999999999`
and `max_iter_inc = 3` (both inside the claim's hypothesis domain and
reachable through the `setattr` kwargs path) the exact quotient
`9999999999999999.66…` rounds to the double `1e16`, so the code returns
`10000000000000000` while floor division gives `9999999999999999`. -/
theorem claim_C4_counterexample :
    (MonophoneConfig.init { num_iters := some 13, initial_gauss_count := some 1, max_gauss_count := some 30000000000000000 }).initial_gauss_count = some 1 ∧
    0 ≤ (MonophoneConfig.init { num_iters := some 13, initial_gauss_count := some 1, max_gauss_count := some 30000000000000000 }).max_gauss_count - 1 ∧
    0 < (MonophoneConfig.init { num_iters := some 13, initial_gauss_count := some 1, max_gauss_count := some 30000000000000000 }).max_iter_inc ∧
    (MonophoneConfig.init { num_iters := some 13, initial_gauss_count := some 1, max_gauss_count := some 30000000000000000 }).inc_gauss_count = Except.ok 10000000000000000 ∧
    Int.fdiv ((MonophoneConfig.init { num_iters := some 13, initial_gauss_count := some 1, max_gauss_count := some 30000000000000000 }).max_gauss_count - 1)
      (MonophoneConfig.init { num_iters := some 13, initial_gauss_count := some 1, max_gauss_count := some 30000000000000000 }).max_iter_inc = 9999999999999999 ∧
    (10000000000000000 : Int) ≠ 9999999999999999 := by
  refine ⟨rfl, by decide, by decide, ?_, by decide, by decide⟩
  with_unfolding_all rfl

/-- Claim C4 (amended).  With `initial_gauss_count` set, a non-negative
numerator `max_gauss_count - initial_gauss_count` below `2^53` (the width
of a binary64 significand — the bound the float true division needs to be
floor-exact, and satisfied by every configuration this module itself
constructs) and `max_iter_inc` positive, reading `inc_gauss_count`
returns exactly the floor division
`(max_gauss_count - initial_gauss_count) // max_iter_inc`, on both
`MonophoneConfig` and `LdaMlltConfig`. -/
theorem claim_C4_inc_gauss_count_floor_div :
    (∀ (c : MonophoneConfig) (i : Int), c.initial_gauss_count = some i →
      0 ≤ c.max_gauss_count - i → c.max_gauss_count - i < 2 ^ 53 →
      0 < c.max_iter_inc →
      c.inc_gauss_count = Except.ok (Int.fdiv (c.max_gauss_count - i) c.max_iter_inc)) ∧
    (∀ c : LdaMlltConfig, 0 ≤ c.max_gauss_count - c.initial_gauss_count →
      c.max_gauss_count - c.initial_gauss_count < 2 ^ 53 → 0 < c.max_iter_inc →
      c.inc_gauss_count =
        Except.ok (Int.fdiv (c.max_gauss_count - c.initial_gauss_count) c.max_iter_inc)) := by
  constructor
  · intro c i hi h0 h53 hpos
    unfold MonophoneConfig.inc_gauss_count
    rw [hi]
    exact pyIntTrueDiv_eq_fdiv _ _ h0 h53 hpos
  · intro c h0 h53 hpos
    unfold LdaMlltConfig.inc_gauss_count
    exact pyIntTrueDiv_eq_fdiv _ _ h0 h53 hpos

/-- Witness for claim C4: concrete instances.  A `MonophoneConfig` built
with `initial_gauss_count=100` has `inc_gauss_count = (1000-100)//30`,
and a default `LdaMlltConfig` has `inc_gauss_count = (10000-5000)//13`. -/
theorem claim_C4_witness :
    (MonophoneConfig.init { initial_gauss_count := some 100 }).inc_gauss_count =
      Except.ok (Int.fdiv
        ((MonophoneConfig.init { initial_gauss_count := some 100 }).max_gauss_count - 100)
        (MonophoneConfig.init { initial_gauss_count := some 100 }).max_iter_inc) ∧
    (LdaMlltConfig.init {}).inc_gauss_count =
      Except.ok (Int.fdiv
        ((LdaMlltConfig.init {}).max_gauss_count - (LdaMlltConfig.init {}).initial_gauss_count)
        (LdaMlltConfig.init {}).max_iter_inc) :=
  ⟨claim_C4_inc_gauss_count_floor_div.1 _ 100 rfl (by decide) (by decide) (by decide),
   claim_C4_inc_gauss_count_floor_div.2 _ (by decide) (by decide) (by decide)⟩
